import Mathlib

/-!
Verification of the content pipeline of the social-media-automation repository.

The development shallowly embeds the JavaScript source:

* JS strings are `List Char` (`Str`); `s.substring(0, n)` is `List.take n`,
  `s.split(sep)` is `List.splitOn`, `arr.join(sep)` is `List.intercalate`,
  `arr.slice(0, n)` is `List.take n`.
* Possibly-absent JS values (`undefined`/`null`) are `Option`; the JS
  short-circuit `a || b` on string operands (empty string is falsy) is `strOr`.
* JS numbers in the trend-scoring code are modelled by `JNum`: an exact
  rational for finite values plus the special values `Infinity`, `-Infinity`
  and `NaN`, with the IEEE-754 rules for how the special values propagate
  through `+`, `-`, `*`, `/`, `Math.log10`, `Math.max` and `toFixed`.
  Rounding of finite intermediate results is idealised to exact rational
  arithmetic; `Math.log10` on positive arguments and the current time
  `Date.now()` are abstract parameters (`log10`, `now`).
* `external` effects (upstream platform API calls, the generation-step
  providers) are parameters of the embedding; error propagation uses
  `Except`.
-/

namespace SMA

/-- JS strings, modelled as lists of characters. -/
abbrev Str := List Char

/-- JS `a || b` where `a` is a possibly-absent string: `b` is used when `a`
is `undefined`/`null` or the empty string (both falsy in JS). -/
def strOr : Option Str → Str → Str
  | some s, d => if s = [] then d else s
  | none, d => d

/-- JS `s.split('\n')[0]`: everything before the first newline. -/
def firstLine (s : Str) : Str := s.takeWhile (fun ch => ch ≠ '\n')

/-- The `seoMetadata` object of a content artifact; each field may be absent. -/
structure SeoMetadata where
  title : Option Str
  description : Option Str
  hashtags : Option (List Str)
deriving DecidableEq

/-- The slice of a content artifact read by the repurposing transforms
(`contentOrchestrator.js`): `topic` and `seoMetadata`, each possibly absent. -/
structure Content where
  topic : Option Str
  seoMetadata : Option SeoMetadata
deriving DecidableEq

/-- JS `content.seoMetadata?.title` (optional chaining). -/
def seoTitle (c : Content) : Option Str := c.seoMetadata.bind (·.title)

/-- JS `content.seoMetadata?.description` (optional chaining). -/
def seoDescription (c : Content) : Option Str := c.seoMetadata.bind (·.description)

/-- JS `content.seoMetadata?.hashtags || []`: arrays are truthy even when
empty, so the fallback fires only when the field is absent. -/
def seoHashtags (c : Content) : List Str := (c.seoMetadata.bind (·.hashtags)).getD []

/-- Payload built by `repurposeForInstagram`. -/
structure InstagramPayload where
  caption : Str
  hashtags : List Str
  aspectRatio : Str
  duration : Nat
  visualStyle : Str
deriving DecidableEq

/-- Payload built by `repurposeForTikTok`. -/
structure TikTokPayload where
  caption : Str
  hashtags : List Str
  aspectRatio : Str
  duration : Nat
  visualStyle : Str
deriving DecidableEq

/-- Payload built by `repurposeForFacebook`. -/
structure FacebookPayload where
  message : Str
  hashtags : List Str
  visualStyle : Str
deriving DecidableEq

/-- Payload built by `repurposeForLinkedIn`. -/
structure LinkedInPayload where
  text : Str
  hashtags : List Str
  visualStyle : Str
deriving DecidableEq

/-- `repurposeForInstagram` (contentOrchestrator.js lines 183-195). -/
def repurposeForInstagram (c : Content) : InstagramPayload :=
  let description := strOr (seoDescription c) []
  let hashtags := seoHashtags c
  let caption := firstLine description ++ "\n\n".data ++ List.intercalate [' '] (hashtags.take 10)
  { caption := caption.take 2200
    hashtags := hashtags.take 30
    aspectRatio := "9:16".data
    duration := 60
    visualStyle := "vertical".data }

/-- `repurposeForTikTok` (contentOrchestrator.js lines 200-210). -/
def repurposeForTikTok (c : Content) : TikTokPayload :=
  let caption := strOr (seoTitle c) (strOr c.topic "Video".data)
  { caption := caption.take 150
    hashtags := (seoHashtags c).take 10
    aspectRatio := "9:16".data
    duration := 60
    visualStyle := "vertical-dynamic".data }

/-- `repurposeForFacebook` (contentOrchestrator.js lines 215-224). -/
def repurposeForFacebook (c : Content) : FacebookPayload :=
  let description := strOr (seoDescription c) (strOr c.topic [])
  { message := description.take 5000
    hashtags := (seoHashtags c).take 15
    visualStyle := "square".data }

/-- `repurposeForLinkedIn` (contentOrchestrator.js lines 229-241). -/
def repurposeForLinkedIn (c : Content) : LinkedInPayload :=
  let title := strOr (seoTitle c) (strOr c.topic "Professional Content".data)
  let description := strOr (seoDescription c) []
  let descriptionLines := List.intercalate "\n".data ((description.splitOn '\n').take 3)
  let professionalTone := title ++ "\n\n".data ++ descriptionLines
  { text := professionalTone.take 3000
    hashtags := (seoHashtags c).take 5
    visualStyle := "professional".data }

/-- The JS object `repurposed` built by `repurposeContent`: at most one entry
per known platform. -/
structure Repurposed where
  instagram : Option InstagramPayload
  tiktok : Option TikTokPayload
  facebook : Option FacebookPayload
  linkedin : Option LinkedInPayload
deriving DecidableEq

def instagramName : Str := "instagram".data

def tiktokName : Str := "tiktok".data

def facebookName : Str := "facebook".data

def linkedinName : Str := "linkedin".data

/-- One iteration of the `for (const platform of targetPlatforms)` loop in
`repurposeContent`: the `switch` assigns the platform's transform result,
and an unknown platform name falls through without effect. -/
def repurposeStep (c : Content) (acc : Repurposed) (platform : Str) : Repurposed :=
  if platform = instagramName then { acc with instagram := some (repurposeForInstagram c) }
  else if platform = tiktokName then { acc with tiktok := some (repurposeForTikTok c) }
  else if platform = facebookName then { acc with facebook := some (repurposeForFacebook c) }
  else if platform = linkedinName then { acc with linkedin := some (repurposeForLinkedIn c) }
  else acc

/-- `repurposeContent` (contentOrchestrator.js lines 140-178). -/
def repurposeContent (c : Content) (targetPlatforms : List Str) : Repurposed :=
  targetPlatforms.foldl (repurposeStep c) ⟨none, none, none, none⟩

lemma repurposeStep_instagram (c : Content) (acc : Repurposed) (p : Str) :
    (repurposeStep c acc p).instagram =
      if p = instagramName then some (repurposeForInstagram c) else acc.instagram := by
  unfold repurposeStep
  split
  · simp
  · split
    · simp_all
    · split
      · simp_all
      · split <;> simp_all

lemma repurposeStep_tiktok (c : Content) (acc : Repurposed) (p : Str) :
    (repurposeStep c acc p).tiktok =
      if p = tiktokName then some (repurposeForTikTok c) else acc.tiktok := by
  unfold repurposeStep
  split
  · rename_i h
    have : p ≠ tiktokName := by subst h; decide
    simp_all
  · split
    · simp_all
    · split
      · rename_i _ _ h
        have : p ≠ tiktokName := by subst h; decide
        simp_all
      · split
        · rename_i _ _ _ h
          have : p ≠ tiktokName := by subst h; decide
          simp_all
        · simp_all

lemma repurposeStep_facebook (c : Content) (acc : Repurposed) (p : Str) :
    (repurposeStep c acc p).facebook =
      if p = facebookName then some (repurposeForFacebook c) else acc.facebook := by
  unfold repurposeStep
  split
  · rename_i h
    have : p ≠ facebookName := by subst h; decide
    simp_all
  · split
    · rename_i _ h
      have : p ≠ facebookName := by subst h; decide
      simp_all
    · split
      · simp_all
      · split
        · rename_i _ _ _ h
          have : p ≠ facebookName := by subst h; decide
          simp_all
        · simp_all

lemma repurposeStep_linkedin (c : Content) (acc : Repurposed) (p : Str) :
    (repurposeStep c acc p).linkedin =
      if p = linkedinName then some (repurposeForLinkedIn c) else acc.linkedin := by
  unfold repurposeStep
  split
  · rename_i h
    have : p ≠ linkedinName := by subst h; decide
    simp_all
  · split
    · rename_i _ h
      have : p ≠ linkedinName := by subst h; decide
      simp_all
    · split
      · rename_i _ _ h
        have : p ≠ linkedinName := by subst h; decide
        simp_all
      · split
        · simp_all
        · simp_all

lemma foldl_repurposeStep_instagram (c : Content) :
    ∀ (l : List Str) (acc : Repurposed),
      (l.foldl (repurposeStep c) acc).instagram =
        if instagramName ∈ l then some (repurposeForInstagram c) else acc.instagram := by
  intro l
  induction l with
  | nil => intro acc; simp
  | cons p rest ih =>
    intro acc
    by_cases hp : p = instagramName
    · subst hp
      simp [List.foldl_cons, ih, repurposeStep_instagram]
    · simp only [List.foldl_cons, ih, List.mem_cons]
      rw [repurposeStep_instagram, if_neg hp]
      by_cases hm : instagramName ∈ rest
      · simp [hm]
      · have hne : ¬(instagramName = p) := fun h => hp h.symm
        simp [hm, hne]

lemma foldl_repurposeStep_tiktok (c : Content) :
    ∀ (l : List Str) (acc : Repurposed),
      (l.foldl (repurposeStep c) acc).tiktok =
        if tiktokName ∈ l then some (repurposeForTikTok c) else acc.tiktok := by
  intro l
  induction l with
  | nil => intro acc; simp
  | cons p rest ih =>
    intro acc
    by_cases hp : p = tiktokName
    · subst hp
      simp [List.foldl_cons, ih, repurposeStep_tiktok]
    · simp only [List.foldl_cons, ih, List.mem_cons]
      rw [repurposeStep_tiktok, if_neg hp]
      by_cases hm : tiktokName ∈ rest
      · simp [hm]
      · have hne : ¬(tiktokName = p) := fun h => hp h.symm
        simp [hm, hne]

lemma foldl_repurposeStep_facebook (c : Content) :
    ∀ (l : List Str) (acc : Repurposed),
      (l.foldl (repurposeStep c) acc).facebook =
        if facebookName ∈ l then some (repurposeForFacebook c) else acc.facebook := by
  intro l
  induction l with
  | nil => intro acc; simp
  | cons p rest ih =>
    intro acc
    by_cases hp : p = facebookName
    · subst hp
      simp [List.foldl_cons, ih, repurposeStep_facebook]
    · simp only [List.foldl_cons, ih, List.mem_cons]
      rw [repurposeStep_facebook, if_neg hp]
      by_cases hm : facebookName ∈ rest
      · simp [hm]
      · have hne : ¬(facebookName = p) := fun h => hp h.symm
        simp [hm, hne]

lemma foldl_repurposeStep_linkedin (c : Content) :
    ∀ (l : List Str) (acc : Repurposed),
      (l.foldl (repurposeStep c) acc).linkedin =
        if linkedinName ∈ l then some (repurposeForLinkedIn c) else acc.linkedin := by
  intro l
  induction l with
  | nil => intro acc; simp
  | cons p rest ih =>
    intro acc
    by_cases hp : p = linkedinName
    · subst hp
      simp [List.foldl_cons, ih, repurposeStep_linkedin]
    · simp only [List.foldl_cons, ih, List.mem_cons]
      rw [repurposeStep_linkedin, if_neg hp]
      by_cases hm : linkedinName ∈ rest
      · simp [hm]
      · have hne : ¬(linkedinName = p) := fun h => hp h.symm
        simp [hm, hne]

lemma repurposeContent_instagram (c : Content) (l : List Str) :
    (repurposeContent c l).instagram =
      if instagramName ∈ l then some (repurposeForInstagram c) else none :=
  foldl_repurposeStep_instagram c l ⟨none, none, none, none⟩

lemma repurposeContent_tiktok (c : Content) (l : List Str) :
    (repurposeContent c l).tiktok =
      if tiktokName ∈ l then some (repurposeForTikTok c) else none :=
  foldl_repurposeStep_tiktok c l ⟨none, none, none, none⟩

lemma repurposeContent_facebook (c : Content) (l : List Str) :
    (repurposeContent c l).facebook =
      if facebookName ∈ l then some (repurposeForFacebook c) else none :=
  foldl_repurposeStep_facebook c l ⟨none, none, none, none⟩

lemma repurposeContent_linkedin (c : Content) (l : List Str) :
    (repurposeContent c l).linkedin =
      if linkedinName ∈ l then some (repurposeForLinkedIn c) else none :=
  foldl_repurposeStep_linkedin c l ⟨none, none, none, none⟩

/-- C8: `repurposeContent` produces an entry for exactly the requested
platform names among the four known platforms; each entry is the
corresponding transform's output, and a requested name outside the known set
produces no entry and no error (the function is total and the result has no
other fields). -/
theorem repurposeContent_keys_exactly_known_requested (c : Content) (l : List Str) :
    ((repurposeContent c l).instagram =
        if instagramName ∈ l then some (repurposeForInstagram c) else none)
    ∧ ((repurposeContent c l).tiktok =
        if tiktokName ∈ l then some (repurposeForTikTok c) else none)
    ∧ ((repurposeContent c l).facebook =
        if facebookName ∈ l then some (repurposeForFacebook c) else none)
    ∧ ((repurposeContent c l).linkedin =
        if linkedinName ∈ l then some (repurposeForLinkedIn c) else none) :=
  ⟨repurposeContent_instagram c l, repurposeContent_tiktok c l,
    repurposeContent_facebook c l, repurposeContent_linkedin c l⟩

/-- A small concrete artifact used to instantiate hypothesised theorems. -/
def sampleContent : Content :=
  { topic := some "AI tools".data
    seoMetadata := some
      { title := some "Top AI tools".data
        description := some "A tour of AI tools".data
        hashtags := some ["#ai".data, "#tools".data] } }

/-- C1: every payload returned by `repurposeContent` satisfies the
per-platform caps — instagram caption ≤ 2200 and ≤ 30 hashtags, tiktok
caption ≤ 150 and ≤ 10 hashtags, facebook message ≤ 5000 and ≤ 15 hashtags,
linkedin text ≤ 3000 and ≤ 5 hashtags — for every artifact and request
list. -/
theorem repurposeContent_respects_caps (c : Content) (l : List Str) :
    (∀ p, (repurposeContent c l).instagram = some p →
      p.caption.length ≤ 2200 ∧ p.hashtags.length ≤ 30)
    ∧ (∀ p, (repurposeContent c l).tiktok = some p →
      p.caption.length ≤ 150 ∧ p.hashtags.length ≤ 10)
    ∧ (∀ p, (repurposeContent c l).facebook = some p →
      p.message.length ≤ 5000 ∧ p.hashtags.length ≤ 15)
    ∧ (∀ p, (repurposeContent c l).linkedin = some p →
      p.text.length ≤ 3000 ∧ p.hashtags.length ≤ 5) := by
  refine ⟨fun p hp => ?_, fun p hp => ?_, fun p hp => ?_, fun p hp => ?_⟩
  · rw [repurposeContent_instagram] at hp
    split at hp
    · cases hp
      exact ⟨by simp [repurposeForInstagram],
        by simp [repurposeForInstagram]⟩
    · cases hp
  · rw [repurposeContent_tiktok] at hp
    split at hp
    · cases hp
      exact ⟨by simp [repurposeForTikTok],
        by simp [repurposeForTikTok]⟩
    · cases hp
  · rw [repurposeContent_facebook] at hp
    split at hp
    · cases hp
      exact ⟨by simp [repurposeForFacebook],
        by simp [repurposeForFacebook]⟩
    · cases hp
  · rw [repurposeContent_linkedin] at hp
    split at hp
    · cases hp
      exact ⟨by simp [repurposeForLinkedIn],
        by simp [repurposeForLinkedIn]⟩
    · cases hp

theorem repurposeContent_respects_caps_witness :
    (repurposeForInstagram sampleContent).caption.length ≤ 2200
    ∧ (repurposeForInstagram sampleContent).hashtags.length ≤ 30 :=
  (repurposeContent_respects_caps sampleContent [instagramName]).1
    (repurposeForInstagram sampleContent)
    (by rw [repurposeContent_instagram]; simp)

/-- C9: each repurposing transform is total on artifacts whose `seoMetadata`
is entirely absent, with the code's fallbacks: instagram uses an empty
description and empty hashtag list (caption is just the two newlines of the
template), tiktok's caption falls back to the topic and then `"Video"`,
facebook's message falls back to the topic and then the empty string, and
when the topic is also absent or empty, linkedin's text is the fallback
title `"Professional Content"` followed by the template's two newlines. -/
theorem repurpose_total_with_fallbacks (c : Content) (h : c.seoMetadata = none) :
    repurposeForInstagram c =
      { caption := "\n\n".data
        hashtags := []
        aspectRatio := "9:16".data
        duration := 60
        visualStyle := "vertical".data }
    ∧ (repurposeForTikTok c).caption = (strOr c.topic "Video".data).take 150
    ∧ (repurposeForFacebook c).message = (strOr c.topic []).take 5000
    ∧ ((c.topic = none ∨ c.topic = some []) →
        (repurposeForTikTok c).caption = "Video".data
        ∧ (repurposeForFacebook c).message = []
        ∧ (repurposeForLinkedIn c).text = "Professional Content\n\n".data) := by
  refine ⟨?_, ?_, ?_, ?_⟩
  · simp [repurposeForInstagram, seoDescription, seoHashtags, h, strOr, firstLine]
    decide
  · simp [repurposeForTikTok, seoTitle, h, strOr]
  · simp [repurposeForFacebook, seoDescription, h, strOr]
  · rintro (ht | ht) <;>
      refine ⟨?_, ?_, ?_⟩ <;>
      simp [repurposeForTikTok, repurposeForFacebook, repurposeForLinkedIn,
        seoTitle, seoDescription, seoHashtags, h, ht, strOr] <;>
      decide

theorem repurpose_total_with_fallbacks_witness :
    (repurposeForTikTok { topic := none, seoMetadata := none }).caption = "Video".data
    ∧ (repurposeForFacebook { topic := none, seoMetadata := none }).message = []
    ∧ (repurposeForLinkedIn { topic := none, seoMetadata := none }).text =
        "Professional Content\n\n".data :=
  (repurpose_total_with_fallbacks { topic := none, seoMetadata := none } rfl).2.2.2
    (Or.inl rfl)

/-- `truncateText` from `src/utils/helpers.js`: returns the text unchanged
when it fits, otherwise the first `maxLength - 3` characters followed by the
`"..."` suffix (JS `substring` clamps a negative end index to 0, as does
`Nat` subtraction). -/
def truncateText (text : Str) (maxLength : Nat) : Str :=
  if text.length ≤ maxLength then text
  else text.take (maxLength - "...".data.length) ++ "...".data

/-- The artifact used to refute C4: a TikTok source title longer than the
150-character cap. -/
def longTitleContent : Content :=
  { topic := none
    seoMetadata := some
      { title := some (List.replicate 160 'a')
        description := none
        hashtags := none } }

set_option maxRecDepth 4000 in
/-- C4 counterexample: the repurposing transforms do not append an ellipsis
marker.  For an artifact whose TikTok caption source has 160 characters
(over the 150 cap), the produced caption is 150 characters long and its last
three characters are "aaa", not the "..." marker the claim requires. -/
theorem repurpose_truncation_lacks_ellipsis :
    150 < (strOr (seoTitle longTitleContent) (strOr longTitleContent.topic "Video".data)).length
    ∧ (repurposeForTikTok longTitleContent).caption.length = 150
    ∧ (repurposeForTikTok longTitleContent).caption.drop 147 ≠ "...".data := by
  decide

/-- C4 amended: only the `truncateText` helper (used by the platform
posting functions, not by the repurposing transforms) appends the ellipsis
marker: when the marker fits (`3 ≤ maxLength`), a source over the limit is
cut so that the output still ends with the whole `"..."` marker and fits in
`maxLength`, and a source at or under the limit is returned unchanged.  The
repurposing transforms instead truncate by plain character count: each
caption is a prefix of its source with no marker appended. -/
theorem truncateText_marker_and_plain_repurpose (text : Str) (maxLength : Nat)
    (h3 : 3 ≤ maxLength) :
    (text.length ≤ maxLength → truncateText text maxLength = text)
    ∧ (maxLength < text.length →
        (truncateText text maxLength).length ≤ maxLength
        ∧ "...".data <:+ truncateText text maxLength)
    ∧ (∀ c : Content,
        (repurposeForTikTok c).caption <+: strOr (seoTitle c) (strOr c.topic "Video".data)
        ∧ (repurposeForInstagram c).caption <+:
            firstLine (strOr (seoDescription c) []) ++ "\n\n".data ++
              List.intercalate [' '] ((seoHashtags c).take 10)) := by
  refine ⟨fun hle => ?_, fun hgt => ?_, fun c => ?_⟩
  · simp [truncateText, hle]
  · have hne : ¬ text.length ≤ maxLength := not_le.mpr hgt
    constructor
    · have hdl : "...".data.length = 3 := rfl
      simp only [truncateText, if_neg hne, List.length_append, hdl]
      have htake : (text.take (maxLength - 3)).length ≤ maxLength - 3 :=
        List.length_take_le _ _
      omega
    · simp only [truncateText, if_neg hne]
      exact ⟨text.take (maxLength - "...".data.length), rfl⟩
  · exact ⟨by simp [repurposeForTikTok, List.take_prefix],
      by simp [repurposeForInstagram, List.take_prefix]⟩

theorem truncateText_marker_witness :
    truncateText (List.replicate 5 'a') 4 = 'a' :: "...".data
    ∧ (truncateText (List.replicate 5 'a') 4).length ≤ 4
    ∧ "...".data <:+ truncateText (List.replicate 5 'a') 4 := by
  have h := truncateText_marker_and_plain_repurpose (List.replicate 5 'a') 4 (by decide)
  have h2 := h.2.1 (by decide)
  exact ⟨by decide, h2.1, h2.2⟩

/-- JS numbers as used by the trend-scoring code: an exact rational for
finite values plus `Infinity`, `-Infinity` and `NaN`.  All zeros occurring
in this code are `+0`, so signed zero is not modelled; finite arithmetic is
idealised to exact rational arithmetic. -/
inductive JNum where
  | fin (q : ℚ)
  | inf
  | ninf
  | nan
deriving DecidableEq

namespace JNum

def isFin : JNum → Bool
  | fin _ => true
  | _ => false

def neg : JNum → JNum
  | fin q => fin (-q)
  | inf => ninf
  | ninf => inf
  | nan => nan

def add : JNum → JNum → JNum
  | fin q, fin r => fin (q + r)
  | fin _, inf => inf
  | fin _, ninf => ninf
  | inf, fin _ => inf
  | ninf, fin _ => ninf
  | inf, inf => inf
  | ninf, ninf => ninf
  | inf, ninf => nan
  | ninf, inf => nan
  | _, _ => nan

def sub (a b : JNum) : JNum := add a (neg b)

def mul : JNum → JNum → JNum
  | fin q, fin r => fin (q * r)
  | fin q, inf => if 0 < q then inf else if q < 0 then ninf else nan
  | fin q, ninf => if 0 < q then ninf else if q < 0 then inf else nan
  | inf, fin q => if 0 < q then inf else if q < 0 then ninf else nan
  | ninf, fin q => if 0 < q then ninf else if q < 0 then inf else nan
  | inf, inf => inf
  | inf, ninf => ninf
  | ninf, inf => ninf
  | ninf, ninf => inf
  | _, _ => nan

def div : JNum → JNum → JNum
  | fin q, fin r =>
      if r = 0 then (if 0 < q then inf else if q < 0 then ninf else nan)
      else fin (q / r)
  | fin _, inf => fin 0
  | fin _, ninf => fin 0
  | inf, fin q => if q < 0 then ninf else inf
  | ninf, fin q => if q < 0 then inf else ninf
  | _, _ => nan

/-- JS `Math.max`: `NaN`-propagating. -/
def jmax : JNum → JNum → JNum
  | nan, _ => nan
  | _, nan => nan
  | inf, _ => inf
  | _, inf => inf
  | ninf, b => b
  | a, ninf => a
  | fin q, fin r => fin (Max.max q r)

/-- JS `Math.log10`; the exact values on positive finite arguments come from
the abstract parameter `f` (the function is transcendental), while
`log10 0 = -Infinity` and negative arguments give `NaN`. -/
def log10 (f : ℚ → ℚ) : JNum → JNum
  | fin q => if 0 < q then fin (f q) else if q = 0 then ninf else nan
  | inf => inf
  | ninf => nan
  | nan => nan

end JNum

/-- Exact-rational model of `parseFloat(x.toFixed(2))` on a finite value:
round to 2 decimals with ties going to the larger candidate (the ECMAScript
`toFixed` rule), which is `round` (round half towards `+∞`). -/
def toFixed2Q (q : ℚ) : ℚ := ((round (q * 100) : ℤ) : ℚ) / 100

/-- `parseFloat(x.toFixed(2))` on a JS number: `Infinity` and `NaN` print as
`"Infinity"`/`"NaN"` and `parseFloat` re-parses them to themselves. -/
def jToFixed2 : JNum → JNum
  | JNum.fin q => JNum.fin (toFixed2Q q)
  | JNum.inf => JNum.inf
  | JNum.ninf => JNum.ninf
  | JNum.nan => JNum.nan

/-- A trend record as consumed by `analyzeTrends` (trendDiscovery.service.js):
the numeric statistics are JS numbers and `publishedAtMs` is the parsed
timestamp `new Date(trend.publishedAt).getTime()` in milliseconds. -/
structure Trend where
  title : Str
  viewCount : JNum
  likeCount : JNum
  commentCount : JNum
  publishedAtMs : JNum
deriving DecidableEq

/-- A trend record with the derived fields added by `analyzeTrends`. -/
structure AnalyzedTrend where
  title : Str
  viewCount : JNum
  likeCount : JNum
  commentCount : JNum
  publishedAtMs : JNum
  engagementRate : JNum
  trendScore : JNum
deriving DecidableEq

/-- `calculateTrendScore` (trendDiscovery.service.js lines 144-172), with
`Date.now()` abstracted as `now` (milliseconds). -/
def calculateTrendScore (f : ℚ → ℚ) (now : ℚ) (t : Trend) : JNum :=
  let viewScore := JNum.div (JNum.log10 f t.viewCount) (JNum.fin 10)
  let engagementScore := JNum.div (JNum.add t.likeCount t.commentCount) t.viewCount
  let daysSincePublished :=
    JNum.div (JNum.sub (JNum.fin now) t.publishedAtMs) (JNum.fin 86400000)
  let recencyScore :=
    JNum.jmax (JNum.fin 0) (JNum.sub (JNum.fin 1) (JNum.div daysSincePublished (JNum.fin 30)))
  let score :=
    JNum.mul
      (JNum.add (JNum.add (JNum.mul viewScore (JNum.fin (3/10)))
          (JNum.mul engagementScore (JNum.fin (2/5))))
        (JNum.mul recencyScore (JNum.fin (3/10))))
      (JNum.fin 100)
  jToFixed2 score

/-- The map step of `analyzeTrends`: spread the record and add
`engagementRate` (`parseFloat(((likes + comments) / views * 100).toFixed(2))`)
and `trendScore`. -/
def addDerived (f : ℚ → ℚ) (now : ℚ) (t : Trend) : AnalyzedTrend :=
  { title := t.title
    viewCount := t.viewCount
    likeCount := t.likeCount
    commentCount := t.commentCount
    publishedAtMs := t.publishedAtMs
    engagementRate :=
      jToFixed2 (JNum.mul (JNum.div (JNum.add t.likeCount t.commentCount) t.viewCount)
        (JNum.fin 100))
    trendScore := calculateTrendScore f now t }

/-- The ECMAScript `SortCompare` relation induced by the comparator
`(a, b) => b.trendScore - a.trendScore`: `a` may stay before `b` when the
comparator value is `≤ 0`, a `NaN` comparator value being treated as `+0`. -/
def sortKeepB (a b : AnalyzedTrend) : Bool :=
  match JNum.sub b.trendScore a.trendScore with
  | JNum.fin q => decide (q ≤ 0)
  | JNum.inf => false
  | JNum.ninf => true
  | JNum.nan => true

def sortKeep (a b : AnalyzedTrend) : Prop := sortKeepB a b = true

instance : DecidableRel sortKeep := fun a b => inferInstanceAs (Decidable (_ = _))

/-- `analyzeTrends` (trendDiscovery.service.js lines 114-139): add the
derived fields, then `analyzed.sort((a, b) => b.trendScore - a.trendScore)`.
`Array.prototype.sort` is required by ECMAScript to be stable, and on lists
where the comparator is consistent every stable sort yields the same list;
it is modelled by stable insertion sort with the `SortCompare` relation. -/
def analyzeTrends (f : ℚ → ℚ) (now : ℚ) (trends : List Trend) : List AnalyzedTrend :=
  List.insertionSort sortKeep (trends.map (addDerived f now))

/-- A fixed trivial stand-in for `Math.log10`, used to instantiate the
abstract parameter in concrete evaluations. -/
def log10Zero (q : ℚ) : ℚ := 0

/-- The failing input for C3: a record whose `viewCount` is 0. -/
def zeroViewsTrend : Trend :=
  { title := []
    viewCount := JNum.fin 0
    likeCount := JNum.fin 0
    commentCount := JNum.fin 0
    publishedAtMs := JNum.fin 0 }

/-- C3 (code bug): `analyzeTrends` does not guard the division by
`viewCount`.  On a record with `views = 0` (likes, comments and timestamp 0,
fixed current time 0) the division `0/0` yields `NaN`, so the returned
record's `engagementRate` and `trendScore` are both `NaN` — a non-finite
value, not the score 0 the spec requires. -/
theorem analyzeTrends_zero_views_not_guarded :
    (analyzeTrends log10Zero 0 [zeroViewsTrend]).map
        (fun r => (r.engagementRate, r.trendScore)) = [(JNum.nan, JNum.nan)]
    ∧ JNum.nan.isFin = false := by
  constructor
  · show List.map _ (List.insertionSort sortKeep [addDerived log10Zero 0 zeroViewsTrend]) = _
    have h1 : (addDerived log10Zero 0 zeroViewsTrend).engagementRate = JNum.nan := by
      simp [addDerived, zeroViewsTrend, JNum.add, JNum.div, JNum.mul, jToFixed2]
    have h2 : (addDerived log10Zero 0 zeroViewsTrend).trendScore = JNum.nan := by
      simp [addDerived, calculateTrendScore, zeroViewsTrend, JNum.add, JNum.div,
        JNum.mul, JNum.sub, JNum.neg, JNum.jmax, JNum.log10, jToFixed2]
    simp [List.insertionSort, h1, h2]
  · rfl

/-- The value of a finite JS number (junk value 0 on the special values);
used to compare all-finite score lists through a globally well-behaved
order. -/
def JNum.toQ : JNum → ℚ
  | JNum.fin q => q
  | _ => 0

/-- IEEE-754 `≤` on JS numbers (`NaN` incomparable), used to state
"non-increasing trend score". -/
def jleB : JNum → JNum → Bool
  | JNum.nan, _ => false
  | _, JNum.nan => false
  | JNum.fin a, JNum.fin b => decide (a ≤ b)
  | JNum.ninf, _ => true
  | _, JNum.inf => true
  | _, _ => false

/-- Comparison of analyzed records by the rational value of their score:
a total preorder agreeing with `sortKeep` on finite scores. -/
def keyLe (a b : AnalyzedTrend) : Prop := JNum.toQ b.trendScore ≤ JNum.toQ a.trendScore

instance : DecidableRel keyLe := fun a b =>
  inferInstanceAs (Decidable (JNum.toQ b.trendScore ≤ JNum.toQ a.trendScore))

instance : IsTotal AnalyzedTrend keyLe :=
  ⟨fun a b => le_total (JNum.toQ b.trendScore) (JNum.toQ a.trendScore)⟩

instance : IsTrans AnalyzedTrend keyLe :=
  ⟨fun _ _ _ h1 h2 => le_trans h2 h1⟩

lemma orderedInsert_congr {α : Type} (R S : α → α → Prop)
    [DecidableRel R] [DecidableRel S] (a : α) :
    ∀ l : List α, (∀ b ∈ l, (R a b ↔ S a b)) →
      List.orderedInsert R a l = List.orderedInsert S a l := by
  intro l
  induction l with
  | nil => intro _; rfl
  | cons b t ih =>
    intro h
    simp only [List.orderedInsert]
    by_cases hr : R a b
    · rw [if_pos hr, if_pos ((h b (by simp)).mp hr)]
    · rw [if_neg hr, if_neg (fun hs => hr ((h b (by simp)).mpr hs)),
        ih (fun x hx => h x (by simp [hx]))]

lemma insertionSort_congr {α : Type} (R S : α → α → Prop)
    [DecidableRel R] [DecidableRel S] :
    ∀ l : List α, (∀ a ∈ l, ∀ b ∈ l, (R a b ↔ S a b)) →
      List.insertionSort R l = List.insertionSort S l := by
  intro l
  induction l with
  | nil => intro _; rfl
  | cons a t ih =>
    intro h
    simp only [List.insertionSort]
    rw [ih (fun x hx y hy => h x (by simp [hx]) y (by simp [hy]))]
    refine orderedInsert_congr R S a _ (fun b hb => ?_)
    have hbt : b ∈ t := (List.mem_insertionSort S).mp hb
    exact h a (by simp) b (by simp [hbt])

lemma sortKeep_iff_keyLe {a b : AnalyzedTrend} (ha : a.trendScore.isFin = true)
    (hb : b.trendScore.isFin = true) : sortKeep a b ↔ keyLe a b := by
  cases hsa : a.trendScore with
  | fin qa =>
    cases hsb : b.trendScore with
    | fin qb =>
      simp [sortKeep, sortKeepB, keyLe, JNum.sub, JNum.add, JNum.neg, JNum.toQ,
        hsa, hsb, ← sub_eq_add_neg, sub_nonpos]
    | inf => rw [hsb] at hb; simp [JNum.isFin] at hb
    | ninf => rw [hsb] at hb; simp [JNum.isFin] at hb
    | nan => rw [hsb] at hb; simp [JNum.isFin] at hb
  | inf => rw [hsa] at ha; simp [JNum.isFin] at ha
  | ninf => rw [hsa] at ha; simp [JNum.isFin] at ha
  | nan => rw [hsa] at ha; simp [JNum.isFin] at ha

/-- C5: on any input whose derived trend scores are all finite (the
comparator is then consistent), `analyzeTrends` returns a permutation of the
input records with derived fields added, in non-increasing `trendScore`
order, and any two records with equal `trendScore` keep their input order
(stability). -/
theorem analyzeTrends_sorted_stable (f : ℚ → ℚ) (now : ℚ) (trends : List Trend)
    (hfin : ∀ t ∈ trends.map (addDerived f now), t.trendScore.isFin = true) :
    (analyzeTrends f now trends).Perm (trends.map (addDerived f now))
    ∧ (analyzeTrends f now trends).Pairwise
        (fun a b => jleB b.trendScore a.trendScore = true)
    ∧ (∀ a b : AnalyzedTrend, a.trendScore = b.trendScore →
        List.Sublist [a, b] (trends.map (addDerived f now)) →
        List.Sublist [a, b] (analyzeTrends f now trends)) := by
  set mapped := trends.map (addDerived f now) with hmapped
  have hcong : analyzeTrends f now trends = List.insertionSort keyLe mapped :=
    insertionSort_congr sortKeep keyLe mapped
      (fun a ha b hb => sortKeep_iff_keyLe (hfin a ha) (hfin b hb))
  refine ⟨?_, ?_, ?_⟩
  · rw [hcong]
    exact List.perm_insertionSort keyLe mapped
  · rw [hcong]
    have hsorted : (List.insertionSort keyLe mapped).Pairwise keyLe :=
      List.sorted_insertionSort keyLe mapped
    have hmem : ∀ x ∈ List.insertionSort keyLe mapped, x.trendScore.isFin = true :=
      fun x hx => hfin x ((List.mem_insertionSort keyLe).mp hx)
    refine List.Pairwise.imp_of_mem ?_ hsorted
    intro a b ha hb hab
    cases hqa : a.trendScore with
    | fin qa =>
      cases hqb : b.trendScore with
      | fin qb =>
        unfold keyLe at hab
        rw [hqa, hqb] at hab
        simp only [jleB]
        simpa [JNum.toQ] using hab
      | inf => exact absurd (hmem b hb) (by rw [hqb]; simp [JNum.isFin])
      | ninf => exact absurd (hmem b hb) (by rw [hqb]; simp [JNum.isFin])
      | nan => exact absurd (hmem b hb) (by rw [hqb]; simp [JNum.isFin])
    | inf => exact absurd (hmem a ha) (by rw [hqa]; simp [JNum.isFin])
    | ninf => exact absurd (hmem a ha) (by rw [hqa]; simp [JNum.isFin])
    | nan => exact absurd (hmem a ha) (by rw [hqa]; simp [JNum.isFin])
  · intro a b heq hsub
    rw [hcong]
    refine List.pair_sublist_insertionSort ?_ hsub
    unfold keyLe
    rw [heq]

/-- A small list of trend records (two of them tied on every field) used to
instantiate the sortedness theorem. -/
def sampleTrends : List Trend :=
  [{ title := "first".data
     viewCount := JNum.fin 10
     likeCount := JNum.fin 1
     commentCount := JNum.fin 0
     publishedAtMs := JNum.fin 0 },
   { title := "second".data
     viewCount := JNum.fin 10
     likeCount := JNum.fin 1
     commentCount := JNum.fin 0
     publishedAtMs := JNum.fin 0 }]

theorem analyzeTrends_sorted_stable_witness :
    (analyzeTrends log10Zero 0 sampleTrends).Perm
        (sampleTrends.map (addDerived log10Zero 0))
    ∧ (analyzeTrends log10Zero 0 sampleTrends).Pairwise
        (fun a b => jleB b.trendScore a.trendScore = true) :=
  ⟨(analyzeTrends_sorted_stable log10Zero 0 sampleTrends (by decide)).1,
    (analyzeTrends_sorted_stable log10Zero 0 sampleTrends (by decide)).2.1⟩

lemma JNum.add_fin (a b : ℚ) : JNum.add (.fin a) (.fin b) = .fin (a + b) := rfl

lemma JNum.sub_fin (a b : ℚ) : JNum.sub (.fin a) (.fin b) = .fin (a - b) := by
  simp [JNum.sub, JNum.add, JNum.neg, sub_eq_add_neg]

lemma JNum.mul_fin (a b : ℚ) : JNum.mul (.fin a) (.fin b) = .fin (a * b) := rfl

lemma JNum.div_fin (a b : ℚ) (h : b ≠ 0) : JNum.div (.fin a) (.fin b) = .fin (a / b) := by
  simp [JNum.div, h]

lemma JNum.jmax_fin (a b : ℚ) : JNum.jmax (.fin a) (.fin b) = .fin (Max.max a b) := rfl

lemma JNum.log10_fin_pos (f : ℚ → ℚ) (q : ℚ) (h : 0 < q) :
    JNum.log10 f (.fin q) = .fin (f q) := by
  simp [JNum.log10, h]

/-- The spec's trend-score formula (§4.3), written from the spec's words for
comparison with the code's `calculateTrendScore`:
`100 * (0.3 * log10(views)/10 + 0.4 * (likes+comments)/views +
0.3 * max(0, 1 - daysSincePublished/30))`, rounded to 2 decimals, where
`daysSincePublished` counts days between the publish timestamp and now. -/
def specTrendScore (f : ℚ → ℚ) (now views likes comments publishedAtMs : ℚ) : ℚ :=
  let daysSincePublished := (now - publishedAtMs) / 86400000
  toFixed2Q (100 * ((3/10) * f views / 10 + (2/5) * ((likes + comments) / views)
    + (3/10) * max 0 (1 - daysSincePublished / 30)))

/-- Shared evaluation of `calculateTrendScore` on a record with finite
fields and positive views. -/
lemma calculateTrendScore_fin (f : ℚ → ℚ) (now : ℚ) (t : Trend)
    (v l c p : ℚ) (hv : t.viewCount = .fin v) (hv0 : 0 < v)
    (hl : t.likeCount = .fin l) (hc : t.commentCount = .fin c)
    (hp : t.publishedAtMs = .fin p) :
    calculateTrendScore f now t =
      .fin (toFixed2Q ((f v / 10 * (3/10) + (l + c) / v * (2/5)
        + max 0 (1 - (now - p) / 86400000 / 30) * (3/10)) * 100)) := by
  have h10 : (10:ℚ) ≠ 0 := by norm_num
  have h864 : (86400000:ℚ) ≠ 0 := by norm_num
  have h30 : (30:ℚ) ≠ 0 := by norm_num
  have hvne : v ≠ 0 := ne_of_gt hv0
  simp only [calculateTrendScore, hv, hl, hc, hp,
    JNum.log10_fin_pos f v hv0, JNum.add_fin, JNum.sub_fin,
    JNum.div_fin _ _ h10, JNum.div_fin _ _ hvne, JNum.div_fin _ _ h864,
    JNum.div_fin _ _ h30, JNum.jmax_fin, JNum.mul_fin, jToFixed2]

/-- A record whose derived trend score is finite 30 (at `now = 0` with the
trivial log). -/
def lowScoreTrend : Trend :=
  { title := "low".data
    viewCount := JNum.fin 1
    likeCount := JNum.fin 0
    commentCount := JNum.fin 0
    publishedAtMs := JNum.fin 0 }

/-- A record whose derived trend score is finite 70 (at `now = 0` with the
trivial log). -/
def highScoreTrend : Trend :=
  { title := "high".data
    viewCount := JNum.fin 1
    likeCount := JNum.fin 1
    commentCount := JNum.fin 0
    publishedAtMs := JNum.fin 0 }

/-- Input list refuting the unrestricted sorting claim: a zero-views record
(whose derived score is `NaN`, the unguarded division) sits between records
with finite derived scores 30 and 70. -/
def nanSortInput : List Trend :=
  [lowScoreTrend, zeroViewsTrend, highScoreTrend]

/-- C5 counterexample: the sorting claim fails on an input containing a
zero-views record.  On `nanSortInput` the derived trend scores are
`[30, NaN, 70]` and `analyzeTrends` returns them in exactly that order: the
comparator value against the `NaN` score is `NaN`, which `SortCompare`
treats as "equal", so the record with score 70 never moves past the record
with score 30.  The output is therefore not in non-increasing `trendScore`
order — a finite score 70 follows a finite score 30 — under the IEEE order
(`jleB`) or any reading that orders the finite entries. -/
theorem analyzeTrends_nan_breaks_sorting :
    (analyzeTrends log10Zero 0 nanSortInput).map (fun r => r.trendScore) =
      [JNum.fin 30, JNum.nan, JNum.fin 70]
    ∧ ¬ (analyzeTrends log10Zero 0 nanSortInput).Pairwise
        (fun a b => jleB b.trendScore a.trendScore = true) := by
  have hmax : max (0:ℚ) (1 - ((0:ℚ) - 0) / 86400000 / 30) = 1 := by
    rw [max_eq_right (by norm_num)]
    norm_num
  have hlow : (addDerived log10Zero 0 lowScoreTrend).trendScore = JNum.fin 30 := by
    show calculateTrendScore log10Zero 0 lowScoreTrend = _
    rw [calculateTrendScore_fin log10Zero 0 lowScoreTrend 1 0 0 0 rfl (by norm_num)
      rfl rfl rfl, hmax]
    norm_num [log10Zero, toFixed2Q, round_eq]
  have hhigh : (addDerived log10Zero 0 highScoreTrend).trendScore = JNum.fin 70 := by
    show calculateTrendScore log10Zero 0 highScoreTrend = _
    rw [calculateTrendScore_fin log10Zero 0 highScoreTrend 1 1 0 0 rfl (by norm_num)
      rfl rfl rfl, hmax]
    norm_num [log10Zero, toFixed2Q, round_eq]
  have hzero : (addDerived log10Zero 0 zeroViewsTrend).trendScore = JNum.nan := by
    simp [addDerived, calculateTrendScore, zeroViewsTrend, JNum.add, JNum.div,
      JNum.mul, JNum.sub, JNum.neg, JNum.jmax, JNum.log10, jToFixed2]
  have hKzh : sortKeep (addDerived log10Zero 0 zeroViewsTrend)
      (addDerived log10Zero 0 highScoreTrend) := by
    unfold sortKeep sortKeepB
    rw [hhigh, hzero]
    rfl
  have hKlz : sortKeep (addDerived log10Zero 0 lowScoreTrend)
      (addDerived log10Zero 0 zeroViewsTrend) := by
    unfold sortKeep sortKeepB
    rw [hzero, hlow]
    rfl
  have e2 : List.orderedInsert sortKeep (addDerived log10Zero 0 zeroViewsTrend)
      [addDerived log10Zero 0 highScoreTrend] =
        [addDerived log10Zero 0 zeroViewsTrend, addDerived log10Zero 0 highScoreTrend] := by
    unfold List.orderedInsert
    rw [if_pos hKzh]
  have e3 : List.orderedInsert sortKeep (addDerived log10Zero 0 lowScoreTrend)
      [addDerived log10Zero 0 zeroViewsTrend, addDerived log10Zero 0 highScoreTrend] =
        [addDerived log10Zero 0 lowScoreTrend, addDerived log10Zero 0 zeroViewsTrend,
          addDerived log10Zero 0 highScoreTrend] := by
    unfold List.orderedInsert
    rw [if_pos hKlz]
  have e4 : analyzeTrends log10Zero 0 nanSortInput =
      [addDerived log10Zero 0 lowScoreTrend, addDerived log10Zero 0 zeroViewsTrend,
        addDerived log10Zero 0 highScoreTrend] := by
    show List.orderedInsert sortKeep (addDerived log10Zero 0 lowScoreTrend)
      (List.orderedInsert sortKeep (addDerived log10Zero 0 zeroViewsTrend)
        [addDerived log10Zero 0 highScoreTrend]) = _
    rw [e2, e3]
  constructor
  · rw [e4]
    simp [hlow, hzero, hhigh]
  · rw [e4]
    intro hpair
    have hrel := (List.pairwise_cons.mp hpair).1
      (addDerived log10Zero 0 zeroViewsTrend) (by simp)
    rw [hzero, hlow] at hrel
    exact absurd hrel (by decide)

/-- The spec's example record: views 10^6, likes 5·10^4, comments 5·10^3,
published exactly at the current time. -/
def nowRecord (now : ℚ) : Trend :=
  { title := []
    viewCount := JNum.fin 1000000
    likeCount := JNum.fin 50000
    commentCount := JNum.fin 5000
    publishedAtMs := JNum.fin now }

/-- C6: for any record with finite fields and positive views, the code's
`calculateTrendScore` equals the spec's formula
`100 * (0.3 * log10(views)/10 + 0.4 * (likes+comments)/views +
0.3 * max(0, 1 - daysSincePublished/30))` rounded to 2 decimals
(deterministic given the fixed `now` and `log10`); and on the record
`views=1000000, likes=50000, comments=5000, publishedAt=now` the
`engagementRate` produced by `analyzeTrends` is exactly 5.5. -/
theorem calculateTrendScore_matches_spec (f : ℚ → ℚ) (now : ℚ) (t : Trend)
    (v l c p : ℚ) (hv : t.viewCount = .fin v) (hv0 : 0 < v)
    (hl : t.likeCount = .fin l) (hc : t.commentCount = .fin c)
    (hp : t.publishedAtMs = .fin p) :
    calculateTrendScore f now t = .fin (specTrendScore f now v l c p)
    ∧ (analyzeTrends f now [nowRecord now]).map (fun r => r.engagementRate)
        = [JNum.fin (11/2)] := by
  constructor
  · rw [calculateTrendScore_fin f now t v l c p hv hv0 hl hc hp]
    simp only [specTrendScore]
    congr 2
    ring
  · show [(addDerived f now (nowRecord now)).engagementRate] = _
    have h1e6 : (1000000:ℚ) ≠ 0 := by norm_num
    simp only [addDerived, nowRecord, JNum.add_fin, JNum.div_fin _ _ h1e6,
      JNum.mul_fin, jToFixed2, toFixed2Q]
    norm_num [round_eq]

/-- A (1 view, 0 likes, 0 comments, epoch publish time) record for
instantiating the formula theorem. -/
def unitTrend : Trend :=
  { title := []
    viewCount := JNum.fin 1
    likeCount := JNum.fin 0
    commentCount := JNum.fin 0
    publishedAtMs := JNum.fin 0 }

theorem calculateTrendScore_matches_spec_witness :
    calculateTrendScore log10Zero 0 unitTrend = .fin (specTrendScore log10Zero 0 1 0 0 0)
    ∧ (analyzeTrends log10Zero 0 [nowRecord 0]).map (fun r => r.engagementRate)
        = [JNum.fin (11/2)] :=
  calculateTrendScore_matches_spec log10Zero 0 unitTrend 1 0 0 0 rfl (by norm_num) rfl rfl rfl

/-- A search-result record (title plus parsed publish timestamp); the other
API fields are not consumed by the scoring path. -/
structure SearchResult where
  title : Str
  publishedAtMs : JNum
deriving DecidableEq

/-- The placeholder-metrics record built in `getTrendingTopicsForNiche`
(trendDiscovery.service.js lines 187-193): the search result spread with
constant `viewCount`/`likeCount`/`commentCount`. -/
def placeholderTrend (t : SearchResult) : Trend :=
  { title := t.title
    viewCount := JNum.fin 100000
    likeCount := JNum.fin 5000
    commentCount := JNum.fin 500
    publishedAtMs := t.publishedAtMs }

/-- `getTrendingTopicsForNiche` (trendDiscovery.service.js lines 177-204)
from the keyword-search step onward: analyze the placeholder-metrics
records and return the top 10. -/
def getTrendingTopicsForNiche (f : ℚ → ℚ) (now : ℚ)
    (searchResults : List SearchResult) : List AnalyzedTrend :=
  (analyzeTrends f now (searchResults.map placeholderTrend)).take 10

/-- The trend score of a placeholder-metrics record as a function of its
publish timestamp alone. -/
def placeholderScore (f : ℚ → ℚ) (now : ℚ) (publishedAtMs : JNum) : JNum :=
  calculateTrendScore f now (placeholderTrend { title := [], publishedAtMs := publishedAtMs })

lemma calculateTrendScore_title_irrel (f : ℚ → ℚ) (now : ℚ) (t t' : Trend)
    (h1 : t.viewCount = t'.viewCount) (h2 : t.likeCount = t'.likeCount)
    (h3 : t.commentCount = t'.commentCount) (h4 : t.publishedAtMs = t'.publishedAtMs) :
    calculateTrendScore f now t = calculateTrendScore f now t' := by
  simp [calculateTrendScore, h1, h2, h3, h4]

/-- C10: every record returned by `getTrendingTopicsForNiche` carries the
constant placeholder metrics `viewCount=100000`, `likeCount=5000`,
`commentCount=500`, hence `engagementRate` exactly 5.5; its `trendScore` is
a function of the publish timestamp (the recency input) alone, and — since
`log10(100000) = 5` — equals `17.2 + 30 * recency` rounded to 2 decimals,
so the relative ranking is determined solely by the recency term. -/
theorem getTrendingTopics_placeholder_metrics (f : ℚ → ℚ) (now : ℚ)
    (results : List SearchResult) :
    ∀ r ∈ getTrendingTopicsForNiche f now results,
      r.viewCount = JNum.fin 100000 ∧ r.likeCount = JNum.fin 5000
      ∧ r.commentCount = JNum.fin 500
      ∧ r.engagementRate = JNum.fin (11/2)
      ∧ r.trendScore = placeholderScore f now r.publishedAtMs
      ∧ (f 100000 = 5 → ∀ p : ℚ, r.publishedAtMs = JNum.fin p →
          r.trendScore =
            JNum.fin (toFixed2Q (86/5 + 30 * max 0 (1 - (now - p) / 86400000 / 30)))) := by
  intro r hr
  have hr1 : r ∈ analyzeTrends f now (results.map placeholderTrend) :=
    List.mem_of_mem_take hr
  have hr2 : r ∈ (results.map placeholderTrend).map (addDerived f now) :=
    (List.mem_insertionSort sortKeep).mp hr1
  rw [List.map_map] at hr2
  obtain ⟨t, _, rfl⟩ := List.mem_map.mp hr2
  have h1e5 : (100000:ℚ) ≠ 0 := by norm_num
  refine ⟨rfl, rfl, rfl, ?_, ?_, ?_⟩
  · show jToFixed2 (JNum.mul (JNum.div (JNum.add (JNum.fin 5000) (JNum.fin 500))
      (JNum.fin 100000)) (JNum.fin 100)) = _
    simp only [JNum.add_fin, JNum.div_fin _ _ h1e5, JNum.mul_fin, jToFixed2, toFixed2Q]
    norm_num [round_eq]
  · exact calculateTrendScore_title_irrel f now (placeholderTrend t)
      (placeholderTrend { title := [], publishedAtMs := t.publishedAtMs }) rfl rfl rfl rfl
  · intro hf p hp
    have hp' : (placeholderTrend t).publishedAtMs = JNum.fin p := hp
    show calculateTrendScore f now (placeholderTrend t) = _
    rw [calculateTrendScore_fin f now (placeholderTrend t) 100000 5000 500 p rfl
      (by norm_num) rfl rfl hp', hf]
    congr 2
    ring

/-- A stand-in for `Math.log10` that is exact at the placeholder view
count. -/
def placeholderLog (q : ℚ) : ℚ := if q = 100000 then 5 else 0

def sampleSearchResults : List SearchResult :=
  [{ title := "hello".data, publishedAtMs := JNum.fin 0 }]

theorem getTrendingTopics_placeholder_metrics_witness :
    (addDerived placeholderLog 0
        (placeholderTrend { title := "hello".data, publishedAtMs := JNum.fin 0 })).engagementRate
      = JNum.fin (11/2)
    ∧ (addDerived placeholderLog 0
        (placeholderTrend { title := "hello".data, publishedAtMs := JNum.fin 0 })).trendScore
      = JNum.fin (toFixed2Q (86/5 + 30 * max 0 (1 - (0 - 0) / 86400000 / 30))) := by
  have hmem : (addDerived placeholderLog 0
      (placeholderTrend { title := "hello".data, publishedAtMs := JNum.fin 0 })) ∈
        getTrendingTopicsForNiche placeholderLog 0 sampleSearchResults := by
    show _ ∈ [addDerived placeholderLog 0
      (placeholderTrend { title := "hello".data, publishedAtMs := JNum.fin 0 })]
    exact List.mem_singleton.mpr rfl
  have hr := getTrendingTopics_placeholder_metrics placeholderLog 0 sampleSearchResults _ hmem
  exact ⟨hr.2.2.2.1, hr.2.2.2.2.2 (by norm_num [placeholderLog]) 0 rfl⟩

/-- The options object of `generateCompleteContent`: `topic` may be absent
(`null`/`undefined`) or the empty string, both falsy in JS. -/
structure GenOptions where
  topic : Option Str
  autoDiscoverTrend : Bool
  niche : Str
deriving DecidableEq

/-- JS falsiness of an optional string value. -/
def topicFalsy : Option Str → Bool
  | none => true
  | some s => s.isEmpty

/-- The generation steps of the pipeline (steps 2-7 of the orchestrator). -/
inductive Step where
  | script
  | voiceover
  | visual
  | thumbnail
  | seo
  | broll
deriving DecidableEq

/-- Errors surfaced by `generateCompleteContent`: the missing-topic throw
(`new Error('No topic provided or discovered')`) or a generation step's
failure re-thrown unchanged. -/
inductive GenError where
  | missingTopic
  | stepFailed (s : Step) (msg : Str)
deriving DecidableEq

/-- Abstract generation-step providers (the external generative API calls);
each may fail. -/
structure Providers where
  script : Str → Except Str Str
  voiceoverText : Str → Except Str Str
  voiceover : Str → Except Str Str
  visuals : Str → Except Str Str
  thumbnails : Str → Except Str Str
  seo : Str → Except Str SeoMetadata
  broll : Str → Except Str Str

/-- The content artifact assembled at the end of the pipeline. -/
structure Artifact where
  topic : Str
  fullScript : Str
  voiceover : Str
  visuals : Str
  thumbnails : Str
  seoMetadata : SeoMetadata
  brollSuggestions : Str

/-- Steps 2-7 of `generateCompleteContent`, run in order once a topic is
fixed; the returned list records the generation steps that started, in
order, and the first failure aborts the pipeline. -/
def runPipeline (P : Providers) (topic : Str) : List Step × Except GenError Artifact :=
  match P.script topic with
  | Except.error e => ([Step.script], Except.error (GenError.stepFailed Step.script e))
  | Except.ok fullScript =>
    match P.voiceoverText fullScript with
    | Except.error e =>
        ([Step.script, Step.voiceover], Except.error (GenError.stepFailed Step.voiceover e))
    | Except.ok vt =>
      match P.voiceover vt with
      | Except.error e =>
          ([Step.script, Step.voiceover], Except.error (GenError.stepFailed Step.voiceover e))
      | Except.ok vo =>
        match P.visuals fullScript with
        | Except.error e =>
            ([Step.script, Step.voiceover, Step.visual],
              Except.error (GenError.stepFailed Step.visual e))
        | Except.ok vis =>
          match P.thumbnails topic with
          | Except.error e =>
              ([Step.script, Step.voiceover, Step.visual, Step.thumbnail],
                Except.error (GenError.stepFailed Step.thumbnail e))
          | Except.ok th =>
            match P.seo fullScript with
            | Except.error e =>
                ([Step.script, Step.voiceover, Step.visual, Step.thumbnail, Step.seo],
                  Except.error (GenError.stepFailed Step.seo e))
            | Except.ok sm =>
              match P.broll fullScript with
              | Except.error e =>
                  ([Step.script, Step.voiceover, Step.visual, Step.thumbnail, Step.seo,
                      Step.broll],
                    Except.error (GenError.stepFailed Step.broll e))
              | Except.ok br =>
                  ([Step.script, Step.voiceover, Step.visual, Step.thumbnail, Step.seo,
                      Step.broll],
                    Except.ok
                      { topic := topic
                        fullScript := fullScript
                        voiceover := vo
                        visuals := vis
                        thumbnails := th
                        seoMetadata := sm
                        brollSuggestions := br })

/-- `generateCompleteContent` (contentOrchestrator.js lines 25-135):
discover a topic when `autoDiscoverTrend` is set and none was given
(`trends[0]?.title || 'Trending <niche> topic'`), throw the missing-topic
error when the final topic is still falsy, and otherwise run the pipeline.
`discovered` is the title list returned by trend discovery; the webhook
notification and logging have no effect on the result and are omitted. -/
def generateCompleteContent (P : Providers) (opts : GenOptions)
    (discovered : List Str) : List Step × Except GenError Artifact :=
  let finalTopic : Option Str :=
    if opts.autoDiscoverTrend && topicFalsy opts.topic then
      some (strOr discovered.head? ("Trending ".data ++ opts.niche ++ " topic".data))
    else opts.topic
  if topicFalsy finalTopic then ([], Except.error GenError.missingTopic)
  else runPipeline P (finalTopic.getD [])

lemma strOr_ne_nil (o : Option Str) (d : Str) (hd : d ≠ []) : strOr o d ≠ [] := by
  cases o with
  | none => exact hd
  | some s =>
    simp only [strOr]
    split
    · exact hd
    · assumption

lemma runPipeline_not_missing (P : Providers) (topic : Str) :
    (runPipeline P topic).2 ≠ Except.error GenError.missingTopic := by
  unfold runPipeline
  repeat' split
  all_goals simp

/-- C7: with `autoDiscoverTrend` disabled and no (or an empty) topic,
`generateCompleteContent` fails with the missing-topic error before any
generation step starts (empty step trace, no artifact); and the
missing-topic error occurs exactly when discovery is disabled and the topic
is falsy, since with discovery enabled the topic falls back to the
discovered title or the non-empty generic placeholder. -/
theorem generateCompleteContent_missing_topic (P : Providers) (opts : GenOptions)
    (discovered : List Str) :
    (opts.autoDiscoverTrend = false → topicFalsy opts.topic = true →
      generateCompleteContent P opts discovered = ([], Except.error GenError.missingTopic))
    ∧ ((generateCompleteContent P opts discovered).2 = Except.error GenError.missingTopic ↔
        opts.autoDiscoverTrend = false ∧ topicFalsy opts.topic = true) := by
  constructor
  · intro ha ht
    unfold generateCompleteContent
    simp [ha, ht]
  · unfold generateCompleteContent
    by_cases ha : opts.autoDiscoverTrend
    · by_cases ht : topicFalsy opts.topic
      · have hne : strOr discovered.head? ("Trending ".data ++ opts.niche ++ " topic".data)
            ≠ [] := by
          refine strOr_ne_nil _ _ ?_
          simp
        have hfalse : topicFalsy (some (strOr discovered.head?
            ("Trending ".data ++ opts.niche ++ " topic".data))) = false := by
          simpa [topicFalsy, List.isEmpty_iff] using hne
        simp only [ha, ht, Bool.and_self, if_true, hfalse, Bool.false_eq_true, if_false]
        constructor
        · intro h
          exact absurd h (runPipeline_not_missing P _)
        · rintro ⟨h, -⟩
          exact Bool.noConfusion h
      · simp only [ha, Bool.true_and, ht, if_false]
        rw [if_neg (by simpa using ht)]
        constructor
        · intro h
          exact absurd h (runPipeline_not_missing P _)
        · rintro ⟨h, -⟩
          exact Bool.noConfusion h
    · simp only [Bool.not_eq_true] at ha
      simp only [ha, Bool.false_and, if_false]
      by_cases ht : topicFalsy opts.topic
      · simp [ht]
      · simp only [Bool.not_eq_true] at ht
        rw [if_neg (by simp [ht])]
        constructor
        · intro h
          exact absurd h (runPipeline_not_missing P _)
        · rintro ⟨-, h⟩
          exact absurd h (by simp [ht])

/-- Trivial providers (every step succeeds with empty output), for
instantiating the pipeline theorems. -/
def trivialProviders : Providers :=
  { script := fun _ => Except.ok []
    voiceoverText := fun _ => Except.ok []
    voiceover := fun _ => Except.ok []
    visuals := fun _ => Except.ok []
    thumbnails := fun _ => Except.ok []
    seo := fun _ => Except.ok ⟨none, none, none⟩
    broll := fun _ => Except.ok [] }

theorem generateCompleteContent_missing_topic_witness :
    generateCompleteContent trivialProviders
        { topic := none, autoDiscoverTrend := false, niche := "technology".data } []
      = ([], Except.error GenError.missingTopic) :=
  (generateCompleteContent_missing_topic trivialProviders
    { topic := none, autoDiscoverTrend := false, niche := "technology".data } []).1 rfl rfl

/-- Per-platform outcome record returned by `publishContent`. -/
structure PostRecord where
  platform : Str
  postId : Option Str
  url : Option Str
  success : Bool
  error : Option Str
deriving DecidableEq

/-- `postToInstagram` (platformIntegration.service.js): the upstream Graph
API interaction is abstracted to its outcome `up` (post id or error
message); any failure is caught and converted into a failure record, never
re-thrown. -/
def postToInstagram (up : Except Str Str) : PostRecord :=
  match up with
  | Except.ok pid =>
      { platform := instagramName
        postId := some pid
        url := some ("https://www.instagram.com/p/".data ++ pid ++ "/".data)
        success := true
        error := none }
  | Except.error e =>
      { platform := instagramName
        postId := none
        url := none
        success := false
        error := some e }

/-- `postToTikTok`, with the upstream call abstracted to its outcome. -/
def postToTikTok (up : Except Str Str) : PostRecord :=
  match up with
  | Except.ok pid =>
      { platform := tiktokName
        postId := some pid
        url := none
        success := true
        error := none }
  | Except.error e =>
      { platform := tiktokName
        postId := none
        url := none
        success := false
        error := some e }

/-- `postToFacebook`, with the upstream call abstracted to its outcome. -/
def postToFacebook (up : Except Str Str) : PostRecord :=
  match up with
  | Except.ok pid =>
      { platform := facebookName
        postId := some pid
        url := some ("https://www.facebook.com/".data ++ pid)
        success := true
        error := none }
  | Except.error e =>
      { platform := facebookName
        postId := none
        url := none
        success := false
        error := some e }

/-- `postToLinkedIn`, with the upstream call abstracted to its outcome. -/
def postToLinkedIn (up : Except Str Str) : PostRecord :=
  match up with
  | Except.ok pid =>
      { platform := linkedinName
        postId := some pid
        url := none
        success := true
        error := none }
  | Except.error e =>
      { platform := linkedinName
        postId := none
        url := none
        success := false
        error := some e }

/-- The four platform names the `switch` in `publishContent` handles. -/
def knownPlatform (p : Str) : Prop :=
  p = instagramName ∨ p = tiktokName ∨ p = facebookName ∨ p = linkedinName

instance : DecidablePred knownPlatform := fun p =>
  inferInstanceAs (Decidable (_ ∨ _ ∨ _ ∨ _))

/-- The record produced for a known platform name by `publishContent`'s
loop, given the upstream outcomes `up` (platform name ↦ post id or error
message). -/
def publishRecord (up : Str → Except Str Str) (p : Str) : PostRecord :=
  if p = instagramName then postToInstagram (up p)
  else if p = tiktokName then postToTikTok (up p)
  else if p = facebookName then postToFacebook (up p)
  else postToLinkedIn (up p)

/-- One iteration of `publishContent`'s loop: the `if (!platformContent)
continue` guard skips names without a repurposed entry (in particular every
unknown name), otherwise the platform's post call runs and its result is
collected. -/
def publishStep (r : Repurposed) (up : Str → Except Str Str) (p : Str) :
    Option PostRecord :=
  if p = instagramName then r.instagram.map (fun _ => postToInstagram (up p))
  else if p = tiktokName then r.tiktok.map (fun _ => postToTikTok (up p))
  else if p = facebookName then r.facebook.map (fun _ => postToFacebook (up p))
  else if p = linkedinName then r.linkedin.map (fun _ => postToLinkedIn (up p))
  else none

/-- `publishContent` (contentOrchestrator.js lines 246-305) parameterised by
the outcome of the repurposing call: a repurposing failure is re-thrown by
the surrounding try/catch and aborts the whole call, otherwise the loop
collects one outcome per posted platform in input order. -/
def publishContentE (repurposed : Except Str Repurposed) (platforms : List Str)
    (up : Str → Except Str Str) : Except Str (List PostRecord) :=
  match repurposed with
  | Except.error e => Except.error e
  | Except.ok r => Except.ok (platforms.filterMap (publishStep r up))

/-- `publishContent` proper: the repurposing step is the total
`repurposeContent` applied to the same platform list. -/
def publishContent (c : Content) (platforms : List Str)
    (up : Str → Except Str Str) : Except Str (List PostRecord) :=
  publishContentE (Except.ok (repurposeContent c platforms)) platforms up

lemma publishStep_eq (c : Content) (platforms : List Str)
    (up : Str → Except Str Str) (p : Str) (hp : p ∈ platforms) :
    publishStep (repurposeContent c platforms) up p =
      if knownPlatform p then some (publishRecord up p) else none := by
  unfold publishStep publishRecord
  by_cases h1 : p = instagramName
  · rw [if_pos h1, if_pos h1, repurposeContent_instagram, if_pos (h1 ▸ hp),
      if_pos (show knownPlatform p from Or.inl h1)]
    rfl
  · rw [if_neg h1, if_neg h1]
    by_cases h2 : p = tiktokName
    · rw [if_pos h2, if_pos h2, repurposeContent_tiktok, if_pos (h2 ▸ hp),
        if_pos (show knownPlatform p from Or.inr (Or.inl h2))]
      rfl
    · rw [if_neg h2, if_neg h2]
      by_cases h3 : p = facebookName
      · rw [if_pos h3, if_pos h3, repurposeContent_facebook, if_pos (h3 ▸ hp),
          if_pos (show knownPlatform p from Or.inr (Or.inr (Or.inl h3)))]
        rfl
      · rw [if_neg h3, if_neg h3]
        by_cases h4 : p = linkedinName
        · rw [if_pos h4, repurposeContent_linkedin, if_pos (h4 ▸ hp),
            if_pos (show knownPlatform p from Or.inr (Or.inr (Or.inr h4)))]
          rfl
        · rw [if_neg h4,
            if_neg (by simp [knownPlatform, h1, h2, h3, h4])]

lemma filterMap_eq_map_filter {α β : Type} (f : α → Option β) (g : α → β)
    (q : α → Bool) :
    ∀ l : List α, (∀ a ∈ l, f a = if q a then some (g a) else none) →
      l.filterMap f = (l.filter q).map g := by
  intro l
  induction l with
  | nil => intro _; rfl
  | cons a t ih =>
    intro h
    rw [List.filterMap_cons, List.filter_cons, h a (by simp)]
    by_cases hq : q a
    · rw [if_pos hq, if_pos hq, List.map_cons, ih (fun x hx => h x (by simp [hx]))]
    · rw [if_neg hq, if_neg hq, ih (fun x hx => h x (by simp [hx]))]

/-- C2: per-platform publish failures never escape `publishContent`.  For
every artifact, platform list and upstream outcome assignment, the call
returns (does not throw) the list of one outcome record per known requested
platform, in input-list order; a platform whose upstream call fails yields a
record with `success := false` carrying the error message while one whose
upstream call succeeds yields `success := true`; and only a failure of the
repurposing step itself aborts the whole call. -/
theorem publishContent_isolates_failures (c : Content) (platforms : List Str)
    (up : Str → Except Str Str) :
    publishContent c platforms up =
      Except.ok ((platforms.filter (fun p => decide (knownPlatform p))).map
        (publishRecord up))
    ∧ (∀ p, knownPlatform p →
        (publishRecord up p).platform = p
        ∧ ((publishRecord up p).success = true ↔ ∃ pid, up p = Except.ok pid)
        ∧ (∀ m, up p = Except.error m →
            (publishRecord up p).success = false
            ∧ (publishRecord up p).error = some m))
    ∧ (∀ e, publishContentE (Except.error e) platforms up = Except.error e) := by
  refine ⟨?_, ?_, fun e => rfl⟩
  · show Except.ok (platforms.filterMap (publishStep (repurposeContent c platforms) up)) = _
    rw [filterMap_eq_map_filter (publishStep (repurposeContent c platforms) up)
      (publishRecord up) (fun p => decide (knownPlatform p)) platforms
      (fun p hp => by
        rw [publishStep_eq c platforms up p hp]
        by_cases hk : knownPlatform p
        · rw [if_pos hk, if_pos (by simpa using hk)]
        · rw [if_neg hk, if_neg (by simpa using hk)])]
  · intro p hk
    rcases hk with h | h | h | h
    · subst h
      refine ⟨?_, ?_, ?_⟩ <;>
        unfold publishRecord <;>
        rw [if_pos rfl] <;>
        cases hup : up instagramName <;>
        simp [postToInstagram, hup]
    · subst h
      have h1 : tiktokName ≠ instagramName := by decide
      refine ⟨?_, ?_, ?_⟩ <;>
        unfold publishRecord <;>
        rw [if_neg h1, if_pos rfl] <;>
        cases hup : up tiktokName <;>
        simp [postToTikTok, hup]
    · subst h
      have h1 : facebookName ≠ instagramName := by decide
      have h2 : facebookName ≠ tiktokName := by decide
      refine ⟨?_, ?_, ?_⟩ <;>
        unfold publishRecord <;>
        rw [if_neg h1, if_neg h2, if_pos rfl] <;>
        cases hup : up facebookName <;>
        simp [postToFacebook, hup]
    · subst h
      have h1 : linkedinName ≠ instagramName := by decide
      have h2 : linkedinName ≠ tiktokName := by decide
      have h3 : linkedinName ≠ facebookName := by decide
      refine ⟨?_, ?_, ?_⟩ <;>
        unfold publishRecord <;>
        rw [if_neg h1, if_neg h2, if_neg h3] <;>
        cases hup : up linkedinName <;>
        simp [postToLinkedIn, hup]

/-- The upstream outcomes of the spec's example: only facebook's call
fails. -/
def facebookFailsUp (p : Str) : Except Str Str :=
  if p = facebookName then Except.error "boom".data else Except.ok "id1".data

theorem publishContent_isolates_failures_witness :
    publishContent sampleContent [instagramName, facebookName] facebookFailsUp =
      Except.ok [postToInstagram (Except.ok "id1".data),
        postToFacebook (Except.error "boom".data)]
    ∧ (postToInstagram (Except.ok "id1".data)).success = true
    ∧ (postToFacebook (Except.error "boom".data)).success = false
    ∧ (postToFacebook (Except.error "boom".data)).error = some "boom".data := by
  have h := publishContent_isolates_failures sampleContent
    [instagramName, facebookName] facebookFailsUp
  have hfb := (h.2.1 facebookName (Or.inr (Or.inr (Or.inl rfl)))).2.2
    "boom".data rfl
  refine ⟨?_, ?_, hfb.1, hfb.2⟩
  · rw [h.1]
    rfl
  · have hig := (h.2.1 instagramName (Or.inl rfl)).2.1
    exact hig.mpr ⟨"id1".data, rfl⟩

end SMA
